import Mathlib

/-!
Shallow embedding of the timed-push scheduler of `src/main.py`
(plugin `astrbot_pulgin_60sapi`): the cron matcher `is_cron_time`
(lines 12-21), the target resolver `get_push_targets` (43-55), the
scheduler loop body `scheduler_loop` (57-82) and the push routine
`simple_push` (84-107).  Python values fetched from the HTTP API are
modelled as JSON trees (`JVal`), fallible Python evaluation as
`Except PyExc`, and the host collaborators (HTTP fetch, origin listing,
message delivery) as oracles packed in a `Host` structure.
-/

namespace Astrbot60s

/-- JSON value as returned by `resp.json()` in `fetch_api`.  Numbers are
modelled as integers (JSON floats are not needed by any claim and the
source never does arithmetic on the payload). -/
inductive JVal where
  | null : JVal
  | bool : Bool → JVal
  | int : Int → JVal
  | str : String → JVal
  | list : List JVal → JVal
  | obj : List (String × JVal) → JVal

/-- Python exception kinds that the embedded fragment can raise. -/
inductive PyExc where
  | typeError : PyExc
  | keyError : PyExc
deriving DecidableEq, Repr

/-- Boolean projection of an `Except` (did evaluation succeed). -/
def exOk : Except ε α → Bool
  | .ok _ => true
  | .error _ => false

/-- Python truthiness (`not data`) restricted to JSON values: `None`,
`False`, `0`, `""`, `[]` and `{}` are falsy, everything else truthy. -/
def pyFalsy : JVal → Bool
  | .null => true
  | .bool b => !b
  | .int n => decide (n = 0)
  | .str s => s.isEmpty
  | .list xs => xs.isEmpty
  | .obj fs => fs.isEmpty

/-- Test whether a JSON value equals a given Python string (used by the
membership check `"data" in <list>`; Python `==` between a `str` and a
non-`str` JSON value is `False` and never raises). -/
def pyEqStr (s : String) : JVal → Bool
  | .str t => s = t
  | _ => false

/-- First character list starts with the second?  Helper for substring
search. -/
def listStarts : List Char → List Char → Bool
  | [], _ => true
  | _ :: _, [] => false
  | a :: as, b :: bs => a == b && listStarts as bs

/-- Does the second character list contain the first as a contiguous
sublist? -/
def listHasSub (needle : List Char) : List Char → Bool
  | [] => needle.isEmpty
  | c :: cs => listStarts needle (c :: cs) || listHasSub needle cs

/-- Python substring test `needle in hay` for strings. -/
def strContainsSub (hay needle : String) : Bool :=
  listHasSub needle.toList hay.toList

/-- First binding of a key in a Python dict modelled as an association
list (JSON objects have distinct keys, so first-match lookup agrees with
Python dict lookup). -/
def assocFind (key : String) : List (String × JVal) → Option JVal
  | [] => none
  | (k, v) :: rest => if k = key then some v else assocFind key rest

/-- Python membership `key in v` for a string key: key membership on a
dict, element equality on a list, substring test on a string, and a
`TypeError` on `None`, booleans and numbers. -/
def pyContainsStr (key : String) : JVal → Except PyExc Bool
  | .obj fs => .ok (assocFind key fs).isSome
  | .list xs => .ok (xs.any (pyEqStr key))
  | .str s => .ok (strContainsSub s key)
  | _ => .error .typeError

/-- Python subscript `v[key]` with a string key: dict lookup (`KeyError`
when absent), `TypeError` on every non-dict value (string and list
subscripts demand integers). -/
def pyGetItemStr (key : String) : JVal → Except PyExc JVal
  | .obj fs =>
    match assocFind key fs with
    | some v => .ok v
    | none => .error .keyError
  | _ => .error .typeError

/-- Whitespace as recognised by Python `str.split()` (ASCII part; the
few Unicode space code points Python additionally strips never occur in
the configuration strings this plugin reads). -/
def pyIsSpace (c : Char) : Bool :=
  c == ' ' || c == '\t' || c == '\n' || c == '\r' || c == '\x0b' || c == '\x0c'

/-- Accumulating worker for `pySplit`: first argument is the reversed
current token. -/
def splitWsAux : List Char → List Char → List (List Char)
  | acc, [] => if acc.isEmpty then [] else [acc.reverse]
  | acc, c :: cs =>
    if pyIsSpace c then
      if acc.isEmpty then splitWsAux [] cs
      else acc.reverse :: splitWsAux [] cs
    else splitWsAux (c :: acc) cs

/-- Python `s.split()` with no argument: split on runs of whitespace and
drop empty tokens (`cron_str.split()` at line 14 of the source). -/
def pySplit (s : String) : List String :=
  (splitWsAux [] s.toList).map List.asString

/-- Decimal digit value of a character, `none` for non-digits (ASCII;
Python `int()` additionally accepts non-ASCII decimal digits, which do
not occur in cron configuration strings). -/
def decDigit? (c : Char) : Option Nat :=
  if c.isDigit then some (c.toNat - 48) else none

/-- Continue parsing a digit string after at least one digit has been
read: further digits may be separated by single underscores, exactly as
Python `int()` accepts (`1_0` parses, `1_`, `1__0` do not). -/
def digitsRest (acc : Nat) : List Char → Option Nat
  | [] => some acc
  | '_' :: c :: cs =>
    match decDigit? c with
    | some d => digitsRest (acc * 10 + d) cs
    | none => none
  | ['_'] => none
  | c :: cs =>
    match decDigit? c with
    | some d => digitsRest (acc * 10 + d) cs
    | none => none

/-- Parse a non-empty unsigned digit body (first character must be a
digit). -/
def digitsBody : List Char → Option Nat
  | [] => none
  | c :: cs =>
    match decDigit? c with
    | some d => digitsRest d cs
    | none => none

/-- Python `int(s)` on a whitespace-free token, as produced by
`str.split()`: optional single sign followed by digits with optional
single interior underscores; `none` models a raised `ValueError`. -/
def intPy? (s : String) : Option Int :=
  match s.toList with
  | '+' :: rest => (digitsBody rest).map Int.ofNat
  | '-' :: rest => (digitsBody rest).map (fun n => -(n : Int))
  | cs => (digitsBody cs).map Int.ofNat

/-- Wall-clock instant observed by `datetime.datetime.now()` at the top
of the scheduler loop.  `pyWeekday` follows Python `datetime.weekday()`:
0 = Monday, ..., 6 = Sunday (the source adds 1 at line 16). -/
structure Tick where
  minute : Nat
  hour : Nat
  day : Nat
  month : Nat
  pyWeekday : Nat
  second : Nat
deriving DecidableEq, Repr

/-- Instant components in field order, line 16 of the source:
`[now.minute, now.hour, now.day, now.month, now.weekday() + 1]`. -/
def current_time (now : Tick) : List Int :=
  [(now.minute : Int), (now.hour : Int), (now.day : Int), (now.month : Int),
    ((now.pyWeekday : Int) + 1)]

/-- Field-by-field loop of `is_cron_time` (lines 17-20): a `*` field is
skipped, otherwise the field is parsed with `int()` — a parse failure
raises `ValueError`, which the bare `except` of line 21 turns into an
overall `False` — and compared for equality with the instant component. -/
def cronFields : List String → List Int → Bool
  | [], [] => true
  | p :: ps, c :: cs =>
    if p = "*" then cronFields ps cs
    else
      match intPy? p with
      | none => false
      | some k => if k = c then cronFields ps cs else false
  | _, _ => false

/-- Embedding of `is_cron_time(cron_str, now)` (source lines 12-21):
split the schedule, demand exactly 5 fields, then match each field
against the instant component; every internal exception is caught by the
bare `except` and yields `False`, so the embedded function is total. -/
def is_cron_time (cron_str : String) (now : Tick) : Bool :=
  if (pySplit cron_str).length = 5 then
    cronFields (pySplit cron_str) (current_time now)
  else false

/-- Message component built by `simple_push` (lines 90-95):
`Image.fromURL(res["image"])` or `Plain(text)`.  The image constructor
merely wraps the JSON value it is given. -/
inductive Component where
  | image : JVal → Component
  | plain : String → Component

/-- Coerce the first 15 entries of the `news` payload to strings: Python
`"\n".join(...)` raises `TypeError` at the first non-string element. -/
def strsOfJVals : List JVal → Except PyExc (List String)
  | [] => .ok []
  | .str s :: rest =>
    match strsOfJVals rest with
    | .ok ss => .ok (s :: ss)
    | .error e => .error e
  | _ :: _ => .error .typeError

/-- Evaluation of `"\n".join(res["news"][:15])` (line 94): a list is
sliced to its first 15 elements which must all be strings; a string is
sliced to its first 15 characters and join then interleaves its
characters; any other value (number, boolean, `None`, dict) raises a
`TypeError` at the slice. -/
def newsText : JVal → Except PyExc String
  | .list xs =>
    match strsOfJVals (xs.take 15) with
    | .ok ss => .ok (String.intercalate "\n" ss)
    | .error e => .error e
  | .str s => .ok (String.intercalate "\n" ((s.toList.take 15).map Char.toString))
  | _ => .error .typeError

/-- Component construction of `simple_push` (lines 90-95): an `image`
key in the payload record wins and yields a single image component; else
a `news` key yields a single text component `"【name】\n" + joined news`;
else — including a non-dict payload — no component is built. -/
def buildComponents (name : String) (res : JVal) : Except PyExc (List Component) :=
  match res with
  | .obj fs =>
    match assocFind "image" fs with
    | some img => .ok [Component.image img]
    | none =>
      match assocFind "news" fs with
      | some nv =>
        match newsText nv with
        | .error e => .error e
        | .ok body => .ok [Component.plain ("【" ++ name ++ "】\n" ++ body)]
      | none => .ok []
  | _ => .ok []

/-- Origin identifiers carrying the substring `"GroupMessage"` are the
group-type destinations preferred at line 51 of the source. -/
def isGroupOrigin (origin : String) : Bool :=
  strContainsSub origin "GroupMessage"

/-- Embedding of `get_push_targets` (lines 43-55): a non-empty (truthy)
configured target list is returned unchanged; otherwise the host is
asked for all unified message origins — a raised exception is caught and
leaves the configured empty list — and among them the group origins are
preferred, falling back to all origins when no group origin exists. -/
def get_push_targets (cfgTargets : List String)
    (origins : Except Unit (List String)) : List String :=
  if cfgTargets.isEmpty then
    match origins with
    | .error _ => cfgTargets
    | .ok allOrigins =>
      let groups := allOrigins.filter isGroupOrigin
      if groups.isEmpty then allOrigins else groups
  else cfgTargets

/-- Per-target delivery loop of `simple_push` (lines 103-107): each send
is wrapped in its own `try/except`, so a raising send is recorded as a
failed attempt and the loop continues with the next target.  The result
lists every attempted target in order together with its outcome. -/
def fanout (send : String → Except Unit Unit) : List String → List (String × Bool)
  | [] => []
  | t :: ts => (t, exOk (send t)) :: fanout send ts

/-- Outcome of one `simple_push` call that did not raise: the message
chain it built (`none` when the routine returned before constructing
one) and the delivery attempts it made. -/
structure PushResult where
  chain : Option (List Component)
  deliveries : List (String × Bool)

/-- Embedding of `simple_push` (lines 84-107).  `fetched` is the value
`fetch_api` returned (`fetch_api`, lines 33-41, catches every transport
error and returns `None` unless it got an HTTP 200 JSON body, so it
never raises).  The guard `if not data or "data" not in data: return`
is falsiness followed by a membership test that raises `TypeError` on a
truthy number or boolean; `data["data"]` raises `TypeError` when `data`
is a truthy string or list that passed the membership test.  Component
construction may raise through `newsText`.  Exceptions in target
resolution and per-target delivery are caught inside those steps and do
not surface here. -/
def simple_push (name : String) (fetched : Option JVal)
    (cfgTargets : List String) (origins : Except Unit (List String))
    (send : String → Except Unit Unit) : Except PyExc PushResult :=
  match fetched with
  | none => .ok ⟨none, []⟩
  | some v =>
    if pyFalsy v then .ok ⟨none, []⟩
    else
      match pyContainsStr "data" v with
      | .error e => .error e
      | .ok false => .ok ⟨none, []⟩
      | .ok true =>
        match pyGetItemStr "data" v with
        | .error e => .error e
        | .ok res =>
          match buildComponents name res with
          | .error e => .error e
          | .ok comps =>
            if comps.isEmpty then .ok ⟨none, []⟩
            else .ok ⟨some comps, fanout send (get_push_targets cfgTargets origins)⟩

/-- Identity of a configured job: the five scheduled pushes of
`scheduler_loop`, the weather job once per index into the configured
city list. -/
inductive JobId where
  | news : JobId
  | moyu : JobId
  | weather : Nat → JobId
  | exchange : JobId
  | history : JobId
deriving DecidableEq, Repr

/-- One entry of the job table: identity, display name, API endpoint and
optional query parameters. -/
structure JobSpec where
  id : JobId
  name : String
  endpoint : String
  params : Option (List (String × String))

/-- Static plugin configuration read by the scheduler (`self.config`),
with the defaults of the `config.get` calls already applied. -/
structure Config where
  enable_60s : Bool
  cron_60s : String
  enable_moyu : Bool
  cron_moyu : String
  enable_weather : Bool
  cron_weather : String
  city_weather : List String
  enable_exchange : Bool
  cron_exchange : String
  enable_history : Bool
  cron_history : String
  global_target_groups : List String

/-- Host collaborators used during one tick, as oracles: `fetch` is the
result of `fetch_api` per endpoint and parameters (already exception
free), `origins` the outcome of `get_all_unified_msg_origins` (may
raise), `send` the per-target outcome of `context.send_message` (may
raise). -/
structure Host where
  fetch : String → Option (List (String × String)) → Option JVal
  origins : Except Unit (List String)
  send : String → Except Unit Unit

/-- Jobs due at a tick, in the order `scheduler_loop` tests them (lines
60-80): a job contributes when its enable flag is set and `is_cron_time`
accepts its cron string; the weather job contributes one push per
configured city. -/
def dueJobs (cfg : Config) (now : Tick) : List JobSpec :=
  (if cfg.enable_60s && is_cron_time cfg.cron_60s now then
    [⟨JobId.news, "每日新闻", "/v2/60s", none⟩] else [])
  ++ (if cfg.enable_moyu && is_cron_time cfg.cron_moyu now then
    [⟨JobId.moyu, "摸鱼日历", "/v2/moyu", none⟩] else [])
  ++ (if cfg.enable_weather && is_cron_time cfg.cron_weather now then
    cfg.city_weather.enum.map (fun p =>
      ⟨JobId.weather p.1, "天气预报(" ++ p.2 ++ ")", "/v2/weather",
        some [("city", p.2)]⟩)
    else [])
  ++ (if cfg.enable_exchange && is_cron_time cfg.cron_exchange now then
    [⟨JobId.exchange, "当日汇率", "/v2/exchange", none⟩] else [])
  ++ (if cfg.enable_history && is_cron_time cfg.cron_history now then
    [⟨JobId.history, "历史上的今天", "/v2/history", none⟩] else [])

/-- Record of one job the loop actually invoked this tick: `none` as
result when its `simple_push` raised. -/
structure JobRun where
  job : JobId
  result : Option PushResult

/-- Sequential execution of the due jobs (loop body, lines 60-80).  The
body of `scheduler_loop` has no `try/except` of its own, so the first
uncaught exception of a `simple_push` aborts the pass: the raising job
still counts as invoked, the remaining jobs are never reached, and the
exception is reported. -/
def runJobs (cfg : Config) (host : Host) : List JobSpec → List JobRun × Option PyExc
  | [] => ([], none)
  | jb :: rest =>
    match simple_push jb.name (host.fetch jb.endpoint jb.params)
        cfg.global_target_groups host.origins host.send with
    | .ok r =>
      (⟨jb.id, some r⟩ :: (runJobs cfg host rest).1, (runJobs cfg host rest).2)
    | .error e => ([⟨jb.id, none⟩], some e)

/-- Result of one iteration of `scheduler_loop`: the jobs invoked, the
exception that escaped the loop body (if any), and the sleep performed
at line 82 — `await asyncio.sleep(60 - now.second)` with `now` captured
at the top of the iteration; no sleep happens when an exception escaped,
because the exception terminates the task before line 82. -/
structure TickResult where
  runs : List JobRun
  uncaught : Option PyExc
  sleep : Option Nat

/-- One iteration of `scheduler_loop` (lines 57-82) at instant `now`. -/
def scheduler_tick (cfg : Config) (host : Host) (now : Tick) : TickResult :=
  { runs := (runJobs cfg host (dueJobs cfg now)).1
    uncaught := (runJobs cfg host (dueJobs cfg now)).2
    sleep :=
      if (runJobs cfg host (dueJobs cfg now)).2.isNone then
        some (60 - now.second)
      else none }

/-- Schedule string that parses into exactly 5 fields, each the wildcard
`*` or an integer literal accepted by Python `int()`. -/
def wellFormed (s : String) : Bool :=
  (pySplit s).length = 5 &&
    (pySplit s).all (fun p => p = "*" || (intPy? p).isSome)

/-- Matching rule for one field against one instant component: a
wildcard always matches, a literal matches exactly when its parsed value
equals the component. -/
def fieldMatch (p : String) (c : Int) : Prop :=
  p = "*" ∨ intPy? p = some c

/-- Instant falling on a Monday, in Python `datetime.weekday()`
convention (0 = Monday). -/
def Tick.isMonday (t : Tick) : Prop := t.pyWeekday = 0

/-- Instant falling on a Sunday (Python `datetime.weekday()` 6). -/
def Tick.isSunday (t : Tick) : Prop := t.pyWeekday = 6

/-- Configuration with every scheduled push disabled, used to witness
claims about an exception-free tick. -/
def cfgQuiet : Config :=
  { enable_60s := false, cron_60s := ""
    enable_moyu := false, cron_moyu := ""
    enable_weather := false, cron_weather := "", city_weather := []
    enable_exchange := false, cron_exchange := ""
    enable_history := false, cron_history := ""
    global_target_groups := [] }

/-- Host whose fetches all return no data, whose origin listing raises
and whose sends all raise. -/
def hostQuiet : Host :=
  { fetch := fun _ _ => none
    origins := .error ()
    send := fun _ => .error () }

/-- Fetched `data["data"]` values on which the component construction of
lines 90-95 cannot raise: anything without a `news` key (the `image`
branch and the fallthrough never raise), and a `news` value accepted by
`newsText`. -/
def componentsSafe : JVal → Bool
  | .obj fs =>
    match assocFind "image" fs with
    | some _ => true
    | none =>
      match assocFind "news" fs with
      | some nv => exOk (newsText nv)
      | none => true
  | _ => true

/-- Fetch results on which `simple_push` cannot raise: no data, a falsy
payload, a truthy payload on which the membership test `"data" in data`
does not raise and either fails, or succeeds with `data["data"]` not
raising and its value `componentsSafe`. -/
def payloadSafe : Option JVal → Bool
  | none => true
  | some v =>
    if pyFalsy v then true
    else
      match pyContainsStr "data" v with
      | .error _ => false
      | .ok false => true
      | .ok true =>
        match pyGetItemStr "data" v with
        | .error _ => false
        | .ok res => componentsSafe res

/-- Configuration with the news and moyu pushes enabled on an
all-wildcard schedule. -/
def cfgNewsBad : Config :=
  { enable_60s := true, cron_60s := "* * * * *"
    enable_moyu := true, cron_moyu := "* * * * *"
    enable_weather := false, cron_weather := "", city_weather := []
    enable_exchange := false, cron_exchange := ""
    enable_history := false, cron_history := ""
    global_target_groups := ["g"] }

/-- Host whose 60s fetch returns the payload
`{"data": {"news": 0}}` — an HTTP 200 JSON answer whose `news` value is
a number, so `res["news"][:15]` raises `TypeError` — and whose moyu
fetch returns a well-shaped image payload. -/
def hostNewsBad : Host :=
  { fetch := fun ep _ =>
      if ep = "/v2/60s" then
        some (JVal.obj [("data", JVal.obj [("news", JVal.int 0)])])
      else some (JVal.obj [("data", JVal.obj [("image", JVal.str "http://x/a.png")])])
    origins := .ok []
    send := fun _ => .ok () }

/-- Count of scheduled executions the spec expects for one job in one
tick: 1 when the job is enabled and its schedule matches (for the
weather job, one per configured city index), 0 otherwise. -/
def expectedRuns (cfg : Config) (now : Tick) : JobId → Nat
  | .news => if cfg.enable_60s && is_cron_time cfg.cron_60s now then 1 else 0
  | .moyu => if cfg.enable_moyu && is_cron_time cfg.cron_moyu now then 1 else 0
  | .weather i =>
    if cfg.enable_weather && is_cron_time cfg.cron_weather now then
      (if i < cfg.city_weather.length then 1 else 0)
    else 0
  | .exchange =>
    if cfg.enable_exchange && is_cron_time cfg.cron_exchange now then 1 else 0
  | .history =>
    if cfg.enable_history && is_cron_time cfg.cron_history now then 1 else 0

/-- Configuration enabling only the news push, on every minute. -/
def cfgNewsOnly : Config :=
  { enable_60s := true, cron_60s := "* * * * *"
    enable_moyu := false, cron_moyu := ""
    enable_weather := false, cron_weather := "", city_weather := []
    enable_exchange := false, cron_exchange := ""
    enable_history := false, cron_history := ""
    global_target_groups := [] }

/-- Record payload discriminator (`isinstance(res, dict)`). -/
def JVal.isObj : JVal → Bool
  | .obj _ => true
  | _ => false

/-- String discriminator on JSON values. -/
def isStrJ : JVal → Bool
  | .str _ => true
  | _ => false

/-- News values on which the formatting of line 94 succeeds: a string
(sliced and joined character-wise) or a list whose first 15 entries are
all strings; on every other value `res["news"][:15]` or the join raises
`TypeError`. -/
def newsShapeOk : JVal → Bool
  | .str _ => true
  | .list xs => (xs.take 15).all isStrJ
  | _ => false

/-! Cron matcher: well-formedness, the matching rule, and fail-closed
behaviour on malformed schedules. -/

/-- Field loop of the matcher agrees with pointwise `fieldMatch` on
well-formed field lists of equal length. -/
theorem cronFields_eq_true_iff (ps : List String) (cs : List Int)
    (h : ∀ p ∈ ps, p = "*" ∨ (intPy? p).isSome = true)
    (hl : ps.length = cs.length) :
    cronFields ps cs = true ↔ List.Forall₂ fieldMatch ps cs := by
  induction ps generalizing cs with
  | nil =>
    cases cs with
    | nil => simp [cronFields]
    | cons c cs => simp at hl
  | cons p ps ih =>
    cases cs with
    | nil => simp at hl
    | cons c cs =>
      have hp := h p (List.mem_cons_self p ps)
      have hrest : ∀ q ∈ ps, q = "*" ∨ (intPy? q).isSome = true :=
        fun q hq => h q (List.mem_cons_of_mem p hq)
      have hl' : ps.length = cs.length := by simpa using hl
      simp only [cronFields]
      by_cases hstar : p = "*"
      · rw [if_pos hstar]
        rw [List.forall₂_cons]
        rw [ih cs hrest hl']
        simp [fieldMatch, hstar]
      · rw [if_neg hstar]
        rcases hp with hp | hp
        · exact absurd hp hstar
        · obtain ⟨k, hk⟩ := Option.isSome_iff_exists.mp hp
          rw [hk]
          show (if k = c then cronFields ps cs else false) = true ↔
            List.Forall₂ fieldMatch (p :: ps) (c :: cs)
          by_cases hkc : k = c
          · rw [if_pos hkc, List.forall₂_cons, ih cs hrest hl']
            simp [fieldMatch, hk, hkc]
          · rw [if_neg hkc]
            constructor
            · intro hfalse
              exact absurd hfalse (by simp)
            · intro hm
              obtain ⟨hf, -⟩ := List.forall₂_cons.mp hm
              rcases hf with hf | hf
              · exact absurd hf hstar
              · rw [hk] at hf
                exact absurd (Option.some.inj hf) hkc

/-- A field that is neither a wildcard nor parseable forces the field
loop to return `false`, whatever the components are (the loop either
reaches the bad field and the modelled `ValueError` yields `false`, or
it returns `false` earlier). -/
theorem cronFields_false_of_bad (ps : List String) (cs : List Int)
    (h : ∃ p ∈ ps, ¬p = "*" ∧ intPy? p = none) :
    cronFields ps cs = false := by
  induction ps generalizing cs with
  | nil => simp at h
  | cons p ps ih =>
    obtain ⟨q, hq, hq1, hq2⟩ := h
    cases cs with
    | nil => simp [cronFields]
    | cons c cs =>
      simp only [cronFields]
      rcases List.mem_cons.mp hq with rfl | hmem
      · rw [if_neg hq1, hq2]
      · by_cases hstar : p = "*"
        · rw [if_pos hstar]
          exact ih cs ⟨q, hmem, hq1, hq2⟩
        · rw [if_neg hstar]
          cases hip : intPy? p with
          | none => rfl
          | some k =>
            show (if k = c then cronFields ps cs else false) = false
            by_cases hkc : k = c
            · rw [if_pos hkc]
              exact ih cs ⟨q, hmem, hq1, hq2⟩
            · rw [if_neg hkc]

/-- C2: for every well-formed 5-field schedule (each field `*` or an
integer literal) and every instant, `is_cron_time` returns `true` iff
all 5 fields match, where a wildcard always matches and a literal
matches exactly when it equals the corresponding component of
`current_time` (minute, hour, day, month, weekday+1). -/
theorem cron_match_iff (s : String) (t : Tick) (hw : wellFormed s = true) :
    is_cron_time s t = true ↔
      List.Forall₂ fieldMatch (pySplit s) (current_time t) := by
  have h5 : (pySplit s).length = 5 := by
    have := (Bool.and_eq_true _ _).mp hw
    simpa using this.1
  have hall : ∀ p ∈ pySplit s, p = "*" ∨ (intPy? p).isSome = true := by
    have := (Bool.and_eq_true _ _).mp hw
    intro p hp
    have := (List.all_eq_true.mp this.2) p hp
    simpa using this
  unfold is_cron_time
  rw [if_pos h5]
  exact cronFields_eq_true_iff _ _ hall (by simp [current_time, h5])

/-- Witness for C2 at the spec's own example: schedule `"5 9 * * *"`
matches the tick with minute 5, hour 9, day 15, month 3, Sunday. -/
theorem cron_match_iff_witness :
    is_cron_time "5 9 * * *" ⟨5, 9, 15, 3, 6, 42⟩ = true := by
  refine (cron_match_iff "5 9 * * *" ⟨5, 9, 15, 3, 6, 42⟩ (by decide)).mpr ?_
  have hs : pySplit "5 9 * * *" = ["5", "9", "*", "*", "*"] := by decide
  rw [hs]
  refine .cons (Or.inr (by decide)) (.cons (Or.inr (by decide)) ?_)
  exact .cons (Or.inl rfl) (.cons (Or.inl rfl) (.cons (Or.inl rfl) .nil))

/-- C3: a schedule that is not well formed (wrong field count or a field
that is neither `*` nor an integer literal) never matches: the matcher
fails closed and, being a total function in this embedding (the bare
`except` of line 21 catches the `ValueError` of `int()`), never raises. -/
theorem cron_malformed_never_matches (s : String) (t : Tick)
    (h : ¬wellFormed s = true) : is_cron_time s t = false := by
  unfold is_cron_time
  by_cases h5 : (pySplit s).length = 5
  · rw [if_pos h5]
    refine cronFields_false_of_bad _ _ ?_
    by_contra hbad
    apply h
    unfold wellFormed
    rw [Bool.and_eq_true]
    refine ⟨by simpa using h5, List.all_eq_true.mpr ?_⟩
    intro p hp
    rw [Bool.or_eq_true]
    by_contra hcon
    push_neg at hcon
    apply hbad
    refine ⟨p, hp, ?_, ?_⟩
    · simpa using hcon.1
    · have := hcon.2
      simpa [Option.not_isSome_iff_eq_none] using this
  · rw [if_neg h5]

/-- Witness for C3: `"a * * * *"` is malformed and does not match. -/
theorem cron_malformed_never_matches_witness :
    is_cron_time "a * * * *" ⟨5, 9, 15, 3, 6, 42⟩ = false :=
  cron_malformed_never_matches "a * * * *" ⟨5, 9, 15, 3, 6, 42⟩ (by decide)

/-- C4: the day-of-week field is 1-indexed from Monday — the source
compares the literal with `now.weekday() + 1` (line 16) — so literal 1
(other fields wildcards) matches only Mondays and literal 7 only
Sundays. -/
theorem cron_weekday_indexing (t : Tick) :
    (is_cron_time "* * * * 1" t = true → t.isMonday) ∧
      (is_cron_time "* * * * 7" t = true → t.isSunday) := by
  constructor
  · intro h
    unfold is_cron_time at h
    rw [show pySplit "* * * * 1" = ["*", "*", "*", "*", "1"] from by decide] at h
    rw [if_pos (by decide)] at h
    have hm := (cronFields_eq_true_iff ["*", "*", "*", "*", "1"]
        (current_time t) (by decide) (by simp [current_time])).mp h
    simp only [current_time, List.forall₂_cons, fieldMatch] at hm
    obtain ⟨-, -, -, -, h5, -⟩ := hm
    rcases h5 with h5 | h5
    · exact absurd h5 (by decide)
    · rw [show intPy? "1" = some 1 from by decide] at h5
      have h1 : (1 : Int) = (t.pyWeekday : Int) + 1 := Option.some.inj h5
      show t.pyWeekday = 0
      omega
  · intro h
    unfold is_cron_time at h
    rw [show pySplit "* * * * 7" = ["*", "*", "*", "*", "7"] from by decide] at h
    rw [if_pos (by decide)] at h
    have hm := (cronFields_eq_true_iff ["*", "*", "*", "*", "7"]
        (current_time t) (by decide) (by simp [current_time])).mp h
    simp only [current_time, List.forall₂_cons, fieldMatch] at hm
    obtain ⟨-, -, -, -, h5, -⟩ := hm
    rcases h5 with h5 | h5
    · exact absurd h5 (by decide)
    · rw [show intPy? "7" = some 7 from by decide] at h5
      have h7 : (7 : Int) = (t.pyWeekday : Int) + 1 := Option.some.inj h5
      show t.pyWeekday = 6
      omega

/-- Witness for C4 at a concrete Monday instant. -/
theorem cron_weekday_indexing_witness :
    Tick.isMonday ⟨5, 9, 15, 3, 0, 42⟩ :=
  (cron_weekday_indexing ⟨5, 9, 15, 3, 0, 42⟩).1 (by decide)

/-! Scheduler loop: sleep discipline, target resolution, fan-out. -/

/-- C5: when the pass over the jobs completes (no uncaught exception),
the iteration sleeps `60 - now.second` seconds — `now` being the instant
captured at the top of the iteration — not a fixed 60 seconds; in
particular a tick captured at second 42 sleeps exactly 18 seconds. -/
theorem sleep_until_minute_boundary (cfg : Config) (host : Host) (now : Tick)
    (h : (scheduler_tick cfg host now).uncaught = none) :
    (scheduler_tick cfg host now).sleep = some (60 - now.second) ∧
      (now.second = 42 → (scheduler_tick cfg host now).sleep = some 18) := by
  have he : (runJobs cfg host (dueJobs cfg now)).2 = none := h
  constructor
  · show (if (runJobs cfg host (dueJobs cfg now)).2.isNone then
      some (60 - now.second) else none) = some (60 - now.second)
    rw [he]
    rfl
  · intro h42
    show (if (runJobs cfg host (dueJobs cfg now)).2.isNone then
      some (60 - now.second) else none) = some 18
    rw [he, h42]
    rfl

/-- Witness for C5 at a tick captured at second 42. -/
theorem sleep_until_minute_boundary_witness :
    (scheduler_tick cfgQuiet hostQuiet ⟨5, 9, 15, 3, 6, 42⟩).sleep = some 18 :=
  (sleep_until_minute_boundary cfgQuiet hostQuiet ⟨5, 9, 15, 3, 6, 42⟩
    (by decide)).2 rfl

/-- C6: a non-empty explicit target list is used unchanged; an empty one
resolves to the group-type origins among all origins the host knows when
at least one exists, and to all origins otherwise; with one group and
one non-group origin only the group origin is resolved. -/
theorem target_resolution :
    (∀ cfgTargets origins, cfgTargets ≠ [] →
      get_push_targets cfgTargets origins = cfgTargets) ∧
    (∀ allOrigins, get_push_targets [] (.ok allOrigins) =
      if (allOrigins.filter isGroupOrigin).isEmpty then allOrigins
      else allOrigins.filter isGroupOrigin) ∧
    (get_push_targets []
        (.ok ["napcat:GroupMessage:123", "napcat:FriendMessage:456"]) =
      ["napcat:GroupMessage:123"]) := by
  refine ⟨?_, ?_, by decide⟩
  · intro cfgTargets origins hne
    unfold get_push_targets
    rw [if_neg (by simpa using hne)]
  · intro allOrigins
    rfl

/-- Witness for C6: an explicit target list survives resolution even
when the origin listing would raise. -/
theorem target_resolution_witness :
    get_push_targets ["cfg:1"] (.error ()) = ["cfg:1"] :=
  target_resolution.1 ["cfg:1"] (.error ()) (by decide)

/-- C7: the fan-out attempts one send per resolved target in order, for
every send oracle — a raising send (caught by the per-target
`try/except` of lines 104-107) changes no later attempt, so each target
in the list receives exactly as many attempts as it occurs in the list,
one for a deduplicated list. -/
theorem fanout_isolates_failures (send : String → Except Unit Unit)
    (targets : List String) :
    (fanout send targets).map Prod.fst = targets ∧
      ∀ t, ((fanout send targets).map Prod.fst).count t = targets.count t := by
  have hmap : (fanout send targets).map Prod.fst = targets := by
    induction targets with
    | nil => rfl
    | cons t ts ih => simpa [fanout] using ih
  exact ⟨hmap, fun t => by rw [hmap]⟩

/-- C10: a text push built from a `news` list carries exactly the first
15 entries (in order) of that list — `res["news"][:15]` at line 94 —
however long the fetched list is. -/
theorem news_truncated_to_15 (name : String) (strs : List String) :
    buildComponents name (JVal.obj [("news", JVal.list (strs.map JVal.str))]) =
      .ok [Component.plain
        ("【" ++ name ++ "】\n" ++ String.intercalate "\n" (strs.take 15))] ∧
      (strs.take 15).length ≤ 15 ∧ strs.take 15 <+: strs := by
  refine ⟨?_, by simp, ⟨strs.drop 15, List.take_append_drop 15 strs⟩⟩
  have hjoin : strsOfJVals ((strs.take 15).map JVal.str) = .ok (strs.take 15) := by
    induction strs.take 15 with
    | nil => rfl
    | cons s ss ih => simp [strsOfJVals, ih]
  have h1 : newsText (JVal.list (strs.map JVal.str)) =
      .ok (String.intercalate "\n" (strs.take 15)) := by
    simp only [newsText]
    rw [← List.map_take, hjoin]
  simp only [buildComponents]
  rw [show assocFind "image" [("news", JVal.list (strs.map JVal.str))] = none
      from rfl,
    show assocFind "news" [("news", JVal.list (strs.map JVal.str))] =
      some (JVal.list (strs.map JVal.str)) from rfl]
  show (match newsText (JVal.list (strs.map JVal.str)) with
    | Except.error e => Except.error e
    | Except.ok body =>
        Except.ok [Component.plain ("【" ++ name ++ "】\n" ++ body)]) =
    Except.ok [Component.plain
      ("【" ++ name ++ "】\n" ++ String.intercalate "\n" (strs.take 15))]
  rw [h1]

/-! Error isolation: which fetched payloads can make `simple_push`
raise, and what that does to the loop. -/

/-- Unfolding of `buildComponents` on a record payload. -/
theorem buildComponents_obj_eq (name : String) (fs : List (String × JVal)) :
    buildComponents name (JVal.obj fs) =
      (match assocFind "image" fs with
       | some img => Except.ok [Component.image img]
       | none =>
         match assocFind "news" fs with
         | some nv =>
           match newsText nv with
           | Except.error e => Except.error e
           | Except.ok body =>
               Except.ok [Component.plain ("【" ++ name ++ "】\n" ++ body)]
         | none => Except.ok []) := rfl

/-- A record payload with an `image` key yields exactly one image
component, whatever else the record contains. -/
theorem buildComponents_obj_image (name : String) (fs : List (String × JVal))
    (img : JVal) (hi : assocFind "image" fs = some img) :
    buildComponents name (JVal.obj fs) = .ok [Component.image img] := by
  rw [buildComponents_obj_eq, hi]

/-- A record payload without `image` but with a `news` key defers to
`newsText` on the news value. -/
theorem buildComponents_obj_news (name : String) (fs : List (String × JVal))
    (nv : JVal) (hi : assocFind "image" fs = none)
    (hn : assocFind "news" fs = some nv) :
    buildComponents name (JVal.obj fs) =
      (match newsText nv with
       | Except.error e => Except.error e
       | Except.ok body =>
           Except.ok [Component.plain ("【" ++ name ++ "】\n" ++ body)]) := by
  rw [buildComponents_obj_eq, hi, hn]

/-- A record payload with neither key yields no component. -/
theorem buildComponents_obj_nokeys (name : String) (fs : List (String × JVal))
    (hi : assocFind "image" fs = none) (hn : assocFind "news" fs = none) :
    buildComponents name (JVal.obj fs) = .ok [] := by
  rw [buildComponents_obj_eq, hi, hn]

/-- Component construction succeeds on `componentsSafe` values. -/
theorem buildComponents_ok_of_safe (name : String) (res : JVal)
    (h : componentsSafe res = true) :
    ∃ cs, buildComponents name res = .ok cs := by
  cases res with
  | obj fs =>
    replace h : (match assocFind "image" fs with
      | some _ => true
      | none =>
        match assocFind "news" fs with
        | some nv => exOk (newsText nv)
        | none => true) = true := h
    cases hi : assocFind "image" fs with
    | some img =>
      exact ⟨[Component.image img], buildComponents_obj_image name fs img hi⟩
    | none =>
      rw [hi] at h
      cases hn : assocFind "news" fs with
      | none => exact ⟨[], buildComponents_obj_nokeys name fs hi hn⟩
      | some nv =>
        rw [hn] at h
        replace h : exOk (newsText nv) = true := h
        cases ht : newsText nv with
        | error e =>
          rw [ht] at h
          exact absurd (show false = true from h) (by simp)
        | ok body =>
          refine ⟨[Component.plain ("【" ++ name ++ "】\n" ++ body)], ?_⟩
          rw [buildComponents_obj_news name fs nv hi hn, ht]
  | null => exact ⟨[], rfl⟩
  | bool b => exact ⟨[], rfl⟩
  | int n => exact ⟨[], rfl⟩
  | str s => exact ⟨[], rfl⟩
  | list xs => exact ⟨[], rfl⟩

/-- Unfolding of `simple_push` on a present fetch result. -/
theorem simple_push_some_eq (name : String) (v : JVal) (ct : List String)
    (og : Except Unit (List String)) (sd : String → Except Unit Unit) :
    simple_push name (some v) ct og sd =
      (if pyFalsy v then .ok ⟨none, []⟩
       else
         match pyContainsStr "data" v with
         | .error e => .error e
         | .ok false => .ok ⟨none, []⟩
         | .ok true =>
           match pyGetItemStr "data" v with
           | .error e => .error e
           | .ok res =>
             match buildComponents name res with
             | .error e => .error e
             | .ok comps =>
               if comps.isEmpty then .ok ⟨none, []⟩
               else .ok ⟨some comps,
                 fanout sd (get_push_targets ct og)⟩) := rfl

/-- `simple_push` does not raise on `payloadSafe` fetch results,
whatever the targets, origin listing and send outcomes are. -/
theorem simple_push_ok_of_safe (name : String) (fetched : Option JVal)
    (ct : List String) (og : Except Unit (List String))
    (sd : String → Except Unit Unit) (h : payloadSafe fetched = true) :
    exOk (simple_push name fetched ct og sd) = true := by
  cases fetched with
  | none => rfl
  | some v =>
    replace h : (if pyFalsy v then true
      else
        match pyContainsStr "data" v with
        | .error _ => false
        | .ok false => true
        | .ok true =>
          match pyGetItemStr "data" v with
          | .error _ => false
          | .ok res => componentsSafe res) = true := h
    rw [simple_push_some_eq]
    by_cases hf : pyFalsy v
    · rw [if_pos hf]
      rfl
    · rw [if_neg hf] at h ⊢
      cases hc : pyContainsStr "data" v with
      | error e =>
        rw [hc] at h
        exact absurd (show false = true from h) (by simp)
      | ok b =>
        rw [hc] at h
        cases b with
        | false => rfl
        | true =>
          cases hg : pyGetItemStr "data" v with
          | error e =>
            rw [hg] at h
            exact absurd (show false = true from h) (by simp)
          | ok res =>
            rw [hg] at h
            replace h : componentsSafe res = true := h
            obtain ⟨cs, hcs⟩ := buildComponents_ok_of_safe name res h
            show exOk (match buildComponents name res with
              | Except.error e => (Except.error e : Except PyExc PushResult)
              | Except.ok comps =>
                if comps.isEmpty then Except.ok ⟨none, []⟩
                else Except.ok
                  ⟨some comps, fanout sd (get_push_targets ct og)⟩) = true
            rw [hcs]
            show exOk (if cs.isEmpty then Except.ok ⟨none, []⟩
              else Except.ok (⟨some cs,
                fanout sd (get_push_targets ct og)⟩ : PushResult)) = true
            by_cases he : cs.isEmpty
            · rw [if_pos he]
              rfl
            · rw [if_neg he]
              rfl

/-- When every fetch result is `payloadSafe`, the sequential pass over a
job list finishes with no uncaught exception and invokes exactly the
listed jobs, in order. -/
theorem runJobs_ids_of_safe (cfg : Config) (host : Host) (jobs : List JobSpec)
    (h : ∀ ep ps, payloadSafe (host.fetch ep ps) = true) :
    (runJobs cfg host jobs).2 = none ∧
      (runJobs cfg host jobs).1.map JobRun.job = jobs.map JobSpec.id := by
  induction jobs with
  | nil => exact ⟨rfl, rfl⟩
  | cons jb rest ih =>
    have hok := simple_push_ok_of_safe jb.name (host.fetch jb.endpoint jb.params)
      cfg.global_target_groups host.origins host.send (h _ _)
    simp only [runJobs]
    cases hsp : simple_push jb.name (host.fetch jb.endpoint jb.params)
        cfg.global_target_groups host.origins host.send with
    | error e =>
      rw [hsp] at hok
      exact absurd (show false = true from hok) (by simp)
    | ok r =>
      refine ⟨?_, ?_⟩
      · show (runJobs cfg host rest).2 = none
        exact ih.1
      · show List.map JobRun.job
            ((⟨jb.id, some r⟩ : JobRun) :: (runJobs cfg host rest).1) =
          List.map JobSpec.id (jb :: rest)
        rw [List.map_cons, List.map_cons, ih.2]

/-- C1 (amended): provided every fetched payload is well shaped
(`payloadSafe`), no exception escapes the loop body of one tick —
matching cannot raise, fetch failures are normalized to `none`, a
raising origin listing is caught in `get_push_targets`, and a raising
send is caught per target. -/
theorem scheduler_isolates_failures (cfg : Config) (host : Host) (now : Tick)
    (h : ∀ ep ps, payloadSafe (host.fetch ep ps) = true) :
    (scheduler_tick cfg host now).uncaught = none :=
  (runJobs_ids_of_safe cfg host (dueJobs cfg now) h).1

/-- Witness for the amended C1: a host whose origin listing and sends
all raise, and whose fetches return no data, still finishes the tick. -/
theorem scheduler_isolates_failures_witness :
    (scheduler_tick cfgQuiet hostQuiet ⟨5, 9, 15, 3, 6, 42⟩).uncaught = none :=
  scheduler_isolates_failures cfgQuiet hostQuiet ⟨5, 9, 15, 3, 6, 42⟩
    (fun _ _ => rfl)

/-- C1 counterexample: with the news job enabled and due, a fetched
payload whose `news` value is a number makes the per-job push raise a
`TypeError` that escapes the loop body (there is no `try/except` in
`scheduler_loop`), and the end-of-iteration sleep is never reached. -/
theorem scheduler_exception_escapes :
    (scheduler_tick cfgNewsBad hostNewsBad ⟨5, 9, 15, 3, 6, 42⟩).uncaught =
        some PyExc.typeError ∧
      (scheduler_tick cfgNewsBad hostNewsBad ⟨5, 9, 15, 3, 6, 42⟩).sleep = none := by
  decide

/-- Occurrence count of an index in `List.range`. -/
theorem count_range_eq (i n : Nat) :
    (List.range n).count i = if i < n then 1 else 0 := by
  induction n with
  | zero => simp
  | succ m ih =>
    rw [List.range_succ, List.count_append, ih]
    by_cases h : i < m
    · have h2 : i ≠ m := by omega
      have h3 : i < m + 1 := by omega
      simp [h, h2, h3]
    · by_cases h2 : i = m
      · subst h2
        simp [h]
      · have h3 : ¬i < m + 1 := by omega
        simp [h, h2, h3]

/-- Job identities fired by one tick, as five concatenated blocks. -/
theorem dueJobs_ids (cfg : Config) (now : Tick) :
    (dueJobs cfg now).map JobSpec.id =
      (if cfg.enable_60s && is_cron_time cfg.cron_60s now
        then [JobId.news] else [])
      ++ (if cfg.enable_moyu && is_cron_time cfg.cron_moyu now
        then [JobId.moyu] else [])
      ++ (if cfg.enable_weather && is_cron_time cfg.cron_weather now
        then (List.range cfg.city_weather.length).map JobId.weather else [])
      ++ (if cfg.enable_exchange && is_cron_time cfg.cron_exchange now
        then [JobId.exchange] else [])
      ++ (if cfg.enable_history && is_cron_time cfg.cron_history now
        then [JobId.history] else []) := by
  unfold dueJobs
  rw [List.map_append, List.map_append, List.map_append, List.map_append]
  have hb : ∀ (b : Bool) (sp : JobSpec),
      List.map JobSpec.id (if b then [sp] else []) =
        (if b then [sp.id] else []) := by
    intro b sp
    by_cases hbb : b = true
    · rw [if_pos hbb, if_pos hbb]
      rfl
    · rw [if_neg hbb, if_neg hbb]
      rfl
  have hw : List.map JobSpec.id
      (if cfg.enable_weather && is_cron_time cfg.cron_weather now then
        cfg.city_weather.enum.map (fun p =>
          (⟨JobId.weather p.1, "天气预报(" ++ p.2 ++ ")", "/v2/weather",
            some [("city", p.2)]⟩ : JobSpec))
      else []) =
      (if cfg.enable_weather && is_cron_time cfg.cron_weather now then
        (List.range cfg.city_weather.length).map JobId.weather else []) := by
    by_cases hc : (cfg.enable_weather && is_cron_time cfg.cron_weather now) = true
    · rw [if_pos hc, if_pos hc, List.map_map,
        ← List.enum_map_fst cfg.city_weather, List.map_map]
      rfl
    · rw [if_neg hc, if_neg hc]
      rfl
  rw [hb, hb, hb, hb, hw]

/-- Occurrence count of a job id in a conditional singleton block of
`dueJobs`, for the block's own id. -/
theorem count_block_self (b : Bool) (x : JobId) :
    List.count x (if b then [x] else []) = if b then 1 else 0 := by
  by_cases hbb : b = true
  · rw [if_pos hbb, if_pos hbb]
    simp
  · rw [if_neg hbb, if_neg hbb]
    rfl

/-- Occurrence count of a foreign job id in a conditional singleton
block of `dueJobs`. -/
theorem count_block_other (b : Bool) (x y : JobId) (hxy : ¬x = y) :
    List.count y (if b then [x] else []) = 0 := by
  by_cases hbb : b = true
  · rw [if_pos hbb, List.count_eq_zero]
    intro hmem
    rw [List.mem_singleton] at hmem
    exact hxy hmem.symm
  · rw [if_neg hbb]
    rfl

/-- Occurrence count of `weather i` in the weather block of `dueJobs`. -/
theorem count_wblock_weather (b : Bool) (n i : Nat) :
    List.count (JobId.weather i)
        (if b then (List.range n).map JobId.weather else []) =
      if b then (if i < n then 1 else 0) else 0 := by
  by_cases hbb : b = true
  · rw [if_pos hbb, if_pos hbb]
    rw [List.count_map_of_injective (List.range n) JobId.weather
      (fun a b hab => by injection hab) i]
    exact count_range_eq i n
  · rw [if_neg hbb, if_neg hbb]
    rfl

/-- Occurrence count of a non-weather job id in the weather block of
`dueJobs`. -/
theorem count_wblock_other (b : Bool) (n : Nat) (y : JobId)
    (hy : ∀ i, ¬y = JobId.weather i) :
    List.count y (if b then (List.range n).map JobId.weather else []) = 0 := by
  by_cases hbb : b = true
  · rw [if_pos hbb]
    rw [List.count_eq_zero]
    intro hmem
    obtain ⟨i, -, hi⟩ := List.mem_map.mp hmem
    exact hy i hi.symm
  · rw [if_neg hbb]
    rfl

/-- C8 (amended): provided no job of the tick raises — every fetched
payload is `payloadSafe` — each enabled job whose schedule matches the
tick is invoked exactly once (the weather job once per configured city
index) and every disabled or non-matching job zero times. -/
theorem each_due_job_runs_once (cfg : Config) (host : Host) (now : Tick)
    (h : ∀ ep ps, payloadSafe (host.fetch ep ps) = true) (j : JobId) :
    ((scheduler_tick cfg host now).runs.map JobRun.job).count j =
      expectedRuns cfg now j := by
  have hids : (scheduler_tick cfg host now).runs.map JobRun.job =
      (dueJobs cfg now).map JobSpec.id :=
    (runJobs_ids_of_safe cfg host (dueJobs cfg now) h).2
  rw [hids, dueJobs_ids]
  rw [List.count_append, List.count_append, List.count_append,
    List.count_append]
  cases j with
  | news =>
    rw [show expectedRuns cfg now JobId.news =
      (if cfg.enable_60s && is_cron_time cfg.cron_60s now then 1 else 0)
      from rfl]
    rw [count_block_self, count_block_other _ _ _ (by simp),
      count_wblock_other _ _ _ (fun i => by simp),
      count_block_other _ _ _ (by simp), count_block_other _ _ _ (by simp)]
    omega
  | moyu =>
    rw [show expectedRuns cfg now JobId.moyu =
      (if cfg.enable_moyu && is_cron_time cfg.cron_moyu now then 1 else 0)
      from rfl]
    rw [count_block_self, count_block_other _ _ _ (by simp),
      count_wblock_other _ _ _ (fun i => by simp),
      count_block_other _ _ _ (by simp), count_block_other _ _ _ (by simp)]
    omega
  | weather i =>
    rw [show expectedRuns cfg now (JobId.weather i) =
      (if cfg.enable_weather && is_cron_time cfg.cron_weather now then
        (if i < cfg.city_weather.length then 1 else 0) else 0) from rfl]
    rw [count_wblock_weather, count_block_other _ _ _ (by simp),
      count_block_other _ _ _ (by simp), count_block_other _ _ _ (by simp),
      count_block_other _ _ _ (by simp)]
    omega
  | exchange =>
    rw [show expectedRuns cfg now JobId.exchange =
      (if cfg.enable_exchange && is_cron_time cfg.cron_exchange now then 1
        else 0) from rfl]
    rw [count_block_self, count_block_other _ _ _ (by simp),
      count_wblock_other _ _ _ (fun i => by simp),
      count_block_other _ _ _ (by simp), count_block_other _ _ _ (by simp)]
    omega
  | history =>
    rw [show expectedRuns cfg now JobId.history =
      (if cfg.enable_history && is_cron_time cfg.cron_history now then 1
        else 0) from rfl]
    rw [count_block_self, count_block_other _ _ _ (by simp),
      count_wblock_other _ _ _ (fun i => by simp),
      count_block_other _ _ _ (by simp), count_block_other _ _ _ (by simp)]
    omega

/-- Witness for the amended C8: with safe fetches, the enabled and
matching news job is counted according to `expectedRuns` (here once). -/
theorem each_due_job_runs_once_witness :
    ((scheduler_tick cfgNewsOnly hostQuiet ⟨5, 9, 15, 3, 6, 42⟩).runs.map
        JobRun.job).count JobId.news =
      expectedRuns cfgNewsOnly ⟨5, 9, 15, 3, 6, 42⟩ JobId.news ∧
      expectedRuns cfgNewsOnly ⟨5, 9, 15, 3, 6, 42⟩ JobId.news = 1 :=
  ⟨each_due_job_runs_once cfgNewsOnly hostQuiet ⟨5, 9, 15, 3, 6, 42⟩
    (fun _ _ => rfl) JobId.news, by decide⟩

/-- C8 counterexample: with the news job due first and raising on its
malformed payload, the enabled and matching moyu job of the same tick is
never invoked — it is silently skipped, so the exactly-once claim fails
on the code as written. -/
theorem matching_job_skipped :
    cfgNewsBad.enable_moyu = true ∧
      is_cron_time cfgNewsBad.cron_moyu ⟨5, 9, 15, 3, 6, 42⟩ = true ∧
      ((scheduler_tick cfgNewsBad hostNewsBad ⟨5, 9, 15, 3, 6, 42⟩).runs.map
        JobRun.job).count JobId.moyu = 0 := by
  decide

/-- Joining a list of string JSON values never raises and returns the
underlying strings. -/
theorem strsOfJVals_map_str (l : List String) :
    strsOfJVals (l.map JVal.str) = .ok l := by
  induction l with
  | nil => rfl
  | cons s ss ih => simp [strsOfJVals, ih]

/-- The news formatter on a list of strings keeps the first 15 entries
and joins them with newlines. -/
theorem newsText_strs (strs : List String) :
    newsText (JVal.list (strs.map JVal.str)) =
      .ok (String.intercalate "\n" (strs.take 15)) := by
  simp only [newsText]
  rw [← List.map_take, strsOfJVals_map_str]

/-- Coercing a list that holds a non-string raises: Python's join
reaches the first non-string element and throws `TypeError`. -/
theorem strsOfJVals_error_of_nonstr (l : List JVal)
    (h : l.all isStrJ = false) :
    strsOfJVals l = .error PyExc.typeError := by
  induction l with
  | nil => exact absurd h (by simp)
  | cons v rest ih =>
    cases v with
    | str s =>
      replace h : rest.all isStrJ = false := by
        simpa [List.all_cons, isStrJ] using h
      show (match strsOfJVals rest with
        | Except.ok ss => Except.ok (s :: ss)
        | Except.error e => Except.error e) = Except.error PyExc.typeError
      rw [ih h]
    | null => rfl
    | bool b => rfl
    | int n => rfl
    | list ys => rfl
    | obj fs => rfl

/-- The news formatter on a list whose first 15 entries are the given
strings joins exactly those strings, whatever follows them. -/
theorem newsText_take_strs (xs : List JVal) (strs : List String)
    (h : xs.take 15 = strs.map JVal.str) :
    newsText (JVal.list xs) = .ok (String.intercalate "\n" strs) := by
  show (match strsOfJVals (xs.take 15) with
    | Except.ok ss => Except.ok (String.intercalate "\n" ss)
    | Except.error e => Except.error e) =
    Except.ok (String.intercalate "\n" strs)
  rw [h, strsOfJVals_map_str]

/-- The news formatter raises `TypeError` on every value that is neither
a string nor a list whose first 15 entries are all strings. -/
theorem newsText_error_of_badShape (nv : JVal) (h : newsShapeOk nv = false) :
    newsText nv = .error PyExc.typeError := by
  cases nv with
  | str s => exact absurd h (by simp [newsShapeOk])
  | list xs =>
    replace h : (xs.take 15).all isStrJ = false := h
    show (match strsOfJVals (xs.take 15) with
      | Except.ok ss => Except.ok (String.intercalate "\n" ss)
      | Except.error e => Except.error e) = Except.error PyExc.typeError
    rw [strsOfJVals_error_of_nonstr _ h]
  | null => rfl
  | bool b => rfl
  | int n => rfl
  | obj fs => rfl

/-- C9 counterexample: a record payload with a `news` key but no `image`
key, whose news value is the number 42, does not yield a text
component — slicing the number raises `TypeError`, and the whole push
raises instead of delivering. -/
theorem news_format_raises :
    buildComponents "每日新闻" (JVal.obj [("news", JVal.int 42)]) =
        .error PyExc.typeError ∧
      simple_push "每日新闻"
          (some (JVal.obj [("data", JVal.obj [("news", JVal.int 42)])]))
          ["g"] (.error ()) (fun _ => .ok ()) =
        .error PyExc.typeError :=
  ⟨rfl, rfl⟩

/-- C9 (amended): an `image` key yields exactly one image component and
takes precedence over a `news` key present in the same record; with no
`image` key, a `news` key builds one text component when the news value
is a list whose first 15 entries are all strings (those entries are
joined; later entries are ignored) or a string (its first 15 characters
are joined); a news value of any other shape makes the formatting raise
`TypeError`, and the raising push builds no message and attempts no
delivery; a record with neither key, or a non-record payload, yields no
component, and a componentless push builds no message and attempts no
delivery. -/
theorem payload_formatting (name : String) :
    (∀ fs img, assocFind "image" fs = some img →
      buildComponents name (JVal.obj fs) = .ok [Component.image img]) ∧
    (∀ (fs : List (String × JVal)) (xs : List JVal) (strs : List String),
      assocFind "image" fs = none →
      assocFind "news" fs = some (JVal.list xs) →
      xs.take 15 = strs.map JVal.str →
      buildComponents name (JVal.obj fs) =
        .ok [Component.plain
          ("【" ++ name ++ "】\n" ++ String.intercalate "\n" strs)]) ∧
    (∀ (fs : List (String × JVal)) (s : String),
      assocFind "image" fs = none →
      assocFind "news" fs = some (JVal.str s) →
      buildComponents name (JVal.obj fs) =
        .ok [Component.plain ("【" ++ name ++ "】\n" ++
          String.intercalate "\n" ((s.toList.take 15).map Char.toString))]) ∧
    (∀ fs nv, assocFind "image" fs = none →
      assocFind "news" fs = some nv → newsShapeOk nv = false →
      buildComponents name (JVal.obj fs) = .error PyExc.typeError) ∧
    (∀ fs, assocFind "image" fs = none → assocFind "news" fs = none →
      buildComponents name (JVal.obj fs) = .ok []) ∧
    (∀ v, v.isObj = false → buildComponents name v = .ok []) ∧
    (∀ res ct og sd, buildComponents name res = .ok [] →
      simple_push name (some (JVal.obj [("data", res)])) ct og sd =
        .ok ⟨none, []⟩) ∧
    (∀ res ct og sd e, buildComponents name res = .error e →
      simple_push name (some (JVal.obj [("data", res)])) ct og sd =
        .error e) := by
  refine ⟨?_, ?_, ?_, ?_, ?_, ?_, ?_, ?_⟩
  · intro fs img hi
    exact buildComponents_obj_image name fs img hi
  · intro fs xs strs hi hn htake
    rw [buildComponents_obj_news name fs _ hi hn, newsText_take_strs xs strs htake]
  · intro fs s hi hn
    rw [buildComponents_obj_news name fs _ hi hn,
      show newsText (JVal.str s) = Except.ok (String.intercalate "\n"
        ((s.toList.take 15).map Char.toString)) from rfl]
  · intro fs nv hi hn hbad
    rw [buildComponents_obj_news name fs nv hi hn,
      newsText_error_of_badShape nv hbad]
  · intro fs hi hn
    exact buildComponents_obj_nokeys name fs hi hn
  · intro v hv
    cases v with
    | obj fs => exact absurd hv (by simp [JVal.isObj])
    | null => rfl
    | bool b => rfl
    | int n => rfl
    | str s => rfl
    | list xs => rfl
  · intro res ct og sd hres
    rw [simple_push_some_eq]
    show (match buildComponents name res with
      | Except.error e => (Except.error e : Except PyExc PushResult)
      | Except.ok comps =>
        if comps.isEmpty then Except.ok ⟨none, []⟩
        else Except.ok
          ⟨some comps, fanout sd (get_push_targets ct og)⟩) =
      Except.ok ⟨none, []⟩
    rw [hres]
    rfl
  · intro res ct og sd e hres
    rw [simple_push_some_eq]
    show (match buildComponents name res with
      | Except.error e => (Except.error e : Except PyExc PushResult)
      | Except.ok comps =>
        if comps.isEmpty then Except.ok ⟨none, []⟩
        else Except.ok
          ⟨some comps, fanout sd (get_push_targets ct og)⟩) =
      Except.error e
    rw [hres]

/-- Witness for the amended C9: `image` wins over `news` when both keys
are present. -/
theorem payload_formatting_witness :
    buildComponents "n" (JVal.obj
        [("image", JVal.str "u"), ("news", JVal.list [JVal.str "a"])]) =
      .ok [Component.image (JVal.str "u")] :=
  (payload_formatting "n").1 _ _ rfl

end Astrbot60s
